import Mathlib

/-!
Shallow embedding of the appointment-booking core of the clinic agent
(`app/agent/prompts.py`, `app/agent/tools.py`, `app/agent/clinic_agent.py`).

Modelling conventions:
* Python strings are Lean `String`s; `str.lower()` is an ASCII lowering.
* Calendar dates are modelled as day numbers (`Nat`); `datetime.now().date()`
  is an explicit `today : Nat` parameter and `tomorrow` is `today + 1`.
  Calendar rendering (`%A, %B %d, %Y`) is abstracted to `toString`.
* `datetime.time` values are `Tm` (hour/minute pair).
* The SQLAlchemy session is a `Db` value threaded through the functions; a
  raising `db.commit()` is modelled by a `dbFails` flag (the transaction then
  leaves the store unchanged, as the aborted session does).
* Python `re.search` for the handful of fixed patterns in the source is
  implemented directly as leftmost-match scanners over the character list.
-/

namespace VoiceAgent

/-- Lower-case a string character by character (Python `str.lower()` on the
ASCII text this program handles). -/
def lowerStr (s : String) : String :=
  String.mk (s.toList.map Char.toLower)

/-- `needle` occurs as a contiguous substring of `hay` (Python `in`). -/
def containsSub (hay needle : List Char) : Bool :=
  needle.isPrefixOf hay ||
    match hay with
    | [] => false
    | _ :: t => containsSub t needle

/-- String-level substring test (Python `needle in hay`). -/
def strContains (hay needle : String) : Bool :=
  containsSub hay.toList needle.toList

/-- Python `\s` on the ASCII whitespace this program handles. -/
def isSpaceCh (c : Char) : Bool :=
  c = ' ' || c = '\t' || c = '\n' || c = '\r'

/-- Python `\w` (regex word character) for ASCII text. -/
def isWordCh (c : Char) : Bool :=
  c.isAlphanum || c = '_'

/-- Python `str.capitalize()`: first character upper-cased, rest lowered. -/
def pyCapitalize (s : String) : String :=
  match s.toList with
  | [] => ""
  | c :: rest => String.mk (c.toUpper :: rest.map Char.toLower)

/-- Python `str.title()`: a letter is upper-cased when it starts an
alphabetic run and lower-cased otherwise. -/
def pyTitleAux : Bool → List Char → List Char
  | _, [] => []
  | prevAlpha, c :: rest =>
    if c.isAlpha then
      (if prevAlpha then c.toLower else c.toUpper) :: pyTitleAux true rest
    else
      c :: pyTitleAux false rest

/-- Python `str.title()`. -/
def pyTitle (s : String) : String :=
  String.mk (pyTitleAux false s.toList)

/-- Python `str.split()` with no argument: split on whitespace runs,
dropping empty pieces. -/
def splitWsAux (cur : List Char) (cs : List Char) : List String :=
  match cs with
  | [] => if cur.isEmpty then [] else [String.mk cur.reverse]
  | c :: rest =>
    if isSpaceCh c then
      if cur.isEmpty then splitWsAux [] rest
      else String.mk cur.reverse :: splitWsAux [] rest
    else splitWsAux (c :: cur) rest

/-- Python `str.split()`. -/
def splitWs (s : String) : List String :=
  splitWsAux [] s.toList

/-- Zero-padded two-digit rendering (Python `f"{n:02d}"`). -/
def pad2 (n : Nat) : String :=
  if n < 10 then "0" ++ toString n else toString n

/-! ## `app/agent/prompts.py` -/

/-- `URGENCY_KEYWORDS` from `prompts.py`. -/
def URGENCY_KEYWORDS : List String :=
  ["chest pain", "heart attack", "can\x27t breathe", "difficulty breathing",
   "severe bleeding", "unconscious", "seizure", "stroke",
   "severe pain", "emergency", "urgent",
   "seene mein dard", "dil ka daura", "sans nahi aa rahi",
   "khoon beh raha", "behosh", "bohot dard", "emergency"]

/-- `is_urgent` from `prompts.py`: case-insensitive substring match against
the fixed bilingual keyword list. -/
def is_urgent (text : String) : Bool :=
  let text_lower := lowerStr text
  URGENCY_KEYWORDS.any (fun keyword => strContains text_lower keyword)

/-! ## `app/agent/tools.py` — slot grid, ledger queries, booking -/

/-- `CLINIC_START_HOUR` (env default "10"). -/
def CLINIC_START_HOUR : Nat := 10

/-- `CLINIC_END_HOUR` (env default "20"). -/
def CLINIC_END_HOUR : Nat := 20

/-- `SLOT_DURATION_MINUTES` (env default "30"). -/
def SLOT_DURATION_MINUTES : Nat := 30

/-- A `datetime.time` value: hour and minute. -/
structure Tm where
  hour : Nat
  minute : Nat
deriving DecidableEq, Repr

/-- The `while current_hour < CLINIC_END_HOUR` loop of `generate_time_slots`,
as structural recursion on an explicit iteration budget.  With the clinic
constants the loop advances `hour*60 + minute` by `SLOT_DURATION_MINUTES`
each pass, so `CLINIC_END_HOUR * 60` iterations always suffice
(`slotsLoop_fuel_saturates` checks this at the configured constants). -/
def slotsLoop : Nat → Nat → Nat → List Tm
  | 0, _, _ => []
  | fuel + 1, current_hour, current_minute =>
    if current_hour < CLINIC_END_HOUR then
      let next_minute := current_minute + SLOT_DURATION_MINUTES
      Tm.mk current_hour current_minute ::
        (if next_minute ≥ 60 then slotsLoop fuel (current_hour + 1) 0
         else slotsLoop fuel current_hour next_minute)
    else []

/-- `generate_time_slots` from `tools.py`: all possible appointment slots for
a day, from clinic open to clinic close at the slot-duration step. -/
def generate_time_slots : List Tm :=
  slotsLoop (CLINIC_END_HOUR * 60) CLINIC_START_HOUR 0

/-- A `patients` row. -/
structure Patient where
  id : Nat
  name : String
  phone : String
  age : Nat
deriving DecidableEq, Repr

/-- An `appointments` row (the fields the booking flow touches). -/
structure Appointment where
  patient_id : Nat
  date : Nat
  time : Tm
  reason : String
  status : String
deriving DecidableEq, Repr

/-- The persistent store visible to the booking flow. -/
structure Db where
  patients : List Patient
  appointments : List Appointment
deriving DecidableEq, Repr

/-- The empty store. -/
def emptyDb : Db := ⟨[], []⟩

/-- The filter used by both `get_available_slots` and `book_appointment`:
an appointment at the given date and time whose status is `pending` or
`confirmed` (SQLAlchemy `status.in_(["pending", "confirmed"])`). -/
def isActiveAt (d : Nat) (t : Tm) (a : Appointment) : Bool :=
  a.date == d && a.time == t && (a.status == "pending" || a.status == "confirmed")

/-- Number of active (`pending`/`confirmed`) appointments at `(d, t)`. -/
def countActive (appts : List Appointment) (d : Nat) (t : Tm) : Nat :=
  (appts.filter (isActiveAt d t)).length

/-- Python `time.strftime("%I:%M %p")`. -/
def fmtTime12 (t : Tm) : String :=
  let h12 := if t.hour % 12 = 0 then 12 else t.hour % 12
  pad2 h12 ++ ":" ++ pad2 t.minute ++ " " ++ (if t.hour < 12 then "AM" else "PM")

/-- The `available` list computed inside `get_available_slots`: all grid
slots whose time is not among the booked (`pending`/`confirmed`)
appointment times for the date. -/
def availableList (appts : List Appointment) (d : Nat) : List Tm :=
  let booked_times :=
    (appts.filter (fun a => a.date == d &&
      (a.status == "pending" || a.status == "confirmed"))).map (·.time)
  generate_time_slots.filter (fun slot => !(booked_times.contains slot))

/-- The "past date" reply of `get_available_slots`. -/
def pastDateMsg : String :=
  "Sorry, I cannot book appointments for past dates. Please choose today or a future date."

/-- The "fully booked" reply of `get_available_slots`. -/
def fullyBookedMsg (dateStr : String) : String :=
  "Sorry, no slots available on " ++ dateStr ++ ". Please try another date."

/-- `get_available_slots` from `tools.py`.  The date argument arrives
already parsed (`strptime` succeeded; the `ValueError` reply for malformed
strings is outside this model). -/
def get_available_slots (today : Nat) (appts : List Appointment) (d : Nat) : String :=
  if d < today then pastDateMsg
  else
    let available := availableList appts d
    if available.isEmpty then fullyBookedMsg (toString d)
    else
      let slot_strings := available.map fmtTime12
      "Available slots on " ++ toString d ++ ": " ++ String.intercalate ", " slot_strings

/-- The conflict reply of `book_appointment`. -/
def slotTakenMsg (timeStr dateStr : String) : String :=
  "Sorry, the slot at " ++ timeStr ++ " on " ++ dateStr ++
    " was just booked. Please choose another time."

/-- The confirmation reply of `book_appointment`. -/
def bookedMsg (name dateStr timeStr phone : String) : String :=
  "✅ Appointment confirmed!\n\nPatient: " ++ name ++ "\nDate: " ++ dateStr ++
    "\nTime: " ++ timeStr ++ "\nPhone: " ++ phone ++
    "\n\nYou will receive a reminder message before your appointment. " ++
    "Please arrive 10 minutes early. Thank you!"

/-- The urgency advisory emitted by `book_appointment` and `chat_with_agent`. -/
def urgentAdvisory : String :=
  "⚠️ URGENT: Based on your symptoms, this may be an emergency. " ++
    "Please call emergency services (115) or go to the nearest hospital immediately. " ++
    "Do not wait for an appointment."

/-- The patient lookup-or-create step (`query ... .first()` then
`db.add(Patient(...)); db.flush()`); the autoincrement id of a new row is
modelled as one past the current row count. -/
def upsertPatient (name phone : String) (age : Nat) (ps : List Patient) : List Patient :=
  match ps.find? (fun p => p.phone == phone) with
  | some _ => ps
  | none => ps ++ [⟨ps.length + 1, name, phone, age⟩]

/-- The id the upserted patient row carries. -/
def upsertedId (phone : String) (ps : List Patient) : Nat :=
  match ps.find? (fun p => p.phone == phone) with
  | some p => p.id
  | none => 0

/-- `book_appointment` from `tools.py`: urgency gate, patient upsert,
check-then-insert of the appointment.  On the conflict path the function
returns before `db.commit()`, so the flushed patient insert is discarded
with the session and the store is unchanged.  Returns the reply together
with the resulting store. -/
def book_appointment (name phone : String) (age : Nat) (d : Nat) (t : Tm)
    (reason : String) (db : Db) : String × Db :=
  if is_urgent reason then (urgentAdvisory, db)
  else
    let ps := upsertPatient name phone age db.patients
    match db.appointments.find? (isActiveAt d t) with
    | some _ => (slotTakenMsg (pad2 t.hour ++ ":" ++ pad2 t.minute) (toString d), db)
    | none =>
      let appt : Appointment := ⟨upsertedId phone ps, d, t, reason, "confirmed"⟩
      (bookedMsg name (toString d) (fmtTime12 t) phone,
       ⟨ps, db.appointments ++ [appt]⟩)

/-! ## `app/agent/clinic_agent.py` — conversation context and field extractor -/

/-- The per-session `context` dict.  Absent keys are `none`;
`context.get('shown_slots')` defaults to falsy, so that key is a `Bool`. -/
structure Context where
  name : Option String := none
  age : Option Nat := none
  phone : Option String := none
  reason : Option String := none
  date : Option Nat := none
  time : Option Tm := none
  stage : Option String := none
  shown_slots : Bool := false
deriving DecidableEq, Repr

/-- A fresh, empty context. -/
def emptyContext : Context := {}

/-- Numeric value of a digit character. -/
def digitVal (c : Char) : Nat := c.toNat - '0'.toNat

/-- Value of a digit string (Python `int` on the captured group). -/
def digitsToNat (ds : List Char) : Nat :=
  ds.foldl (fun acc c => acc * 10 + digitVal c) 0

/-- Split off exactly `k` leading digit characters, if present. -/
def takeDigitsExact : Nat → List Char → Option (List Char × List Char)
  | 0, rest => some ([], rest)
  | _ + 1, [] => none
  | k + 1, c :: rest =>
    if c.isDigit then
      (takeDigitsExact k rest).map (fun p => (c :: p.1, p.2))
    else none

/-- One attempt of `re.search(r'(\d{1,3})\s*(?:years?|saal|sal|old)', ml)`
at a fixed position: greedy 1–3 digits (longest first, as the backtracking
engine tries them), then `\s*`, then one of the age words. -/
def tryAgeAt (cs : List Char) : Option Nat :=
  let tryLen (k : Nat) : Option Nat :=
    match takeDigitsExact k cs with
    | none => none
    | some (ds, rest) =>
      let rest2 := rest.dropWhile isSpaceCh
      if ["years", "year", "saal", "sal", "old"].any
          (fun w => w.toList.isPrefixOf rest2) then
        some (digitsToNat ds)
      else none
  ((tryLen 3).orElse fun _ => tryLen 2).orElse fun _ => tryLen 1

/-- Leftmost match of the age pattern over the lowered message. -/
def findAgeMatch : List Char → Option Nat
  | [] => none
  | c :: rest => (tryAgeAt (c :: rest)).orElse fun _ => findAgeMatch rest

/-- One attempt of `re.search(r'\b(\d{1,3})\b', message)` at a fixed
position whose preceding character is `prev`: the position must sit on a
word boundary, then greedy 1–3 digits, then another word boundary. -/
def tryNumAt (prev : Option Char) (cs : List Char) : Option Nat :=
  let boundaryBefore :=
    match prev with
    | none => true
    | some p => !(isWordCh p)
  if !boundaryBefore then none
  else
    let tryLen (k : Nat) : Option Nat :=
      match takeDigitsExact k cs with
      | none => none
      | some (ds, rest) =>
        let boundaryAfter := match rest with
          | [] => true
          | r :: _ => !(isWordCh r)
        if boundaryAfter then some (digitsToNat ds) else none
    ((tryLen 3).orElse fun _ => tryLen 2).orElse fun _ => tryLen 1

/-- Leftmost match of the standalone-number pattern over the raw message. -/
def findStandaloneAux (prev : Option Char) : List Char → Option Nat
  | [] => none
  | c :: rest =>
    (tryNumAt prev (c :: rest)).orElse fun _ => findStandaloneAux (some c) rest

/-- `re.search(r'\b(\d{1,3})\b', message)`. -/
def findStandalone (cs : List Char) : Option Nat :=
  findStandaloneAux none cs

/-- One attempt of `re.search(r'03\d{2}[- ]?\d{7}', message)` at a fixed
position; the result is the match with separators stripped
(`.replace(' ', '').replace('-', '')`). -/
def tryPhoneAt (cs : List Char) : Option String :=
  match cs with
  | '0' :: '3' :: rest =>
    match takeDigitsExact 2 rest with
    | none => none
    | some (d12, rest2) =>
      let finish (l : List Char) : Option String :=
        (takeDigitsExact 7 l).map (fun p => String.mk ('0' :: '3' :: d12 ++ p.1))
      match rest2 with
      | [] => none
      | c :: r => if c = '-' || c = ' ' then finish r else finish rest2
  | _ => none

/-- Leftmost match of the Pakistan phone pattern. -/
def findPhone : List Char → Option String
  | [] => none
  | c :: rest => (tryPhoneAt (c :: rest)).orElse fun _ => findPhone rest

/-- Case-insensitive literal prefix (the lead-in alternatives run under
`re.IGNORECASE`); returns the remainder after the literal. -/
def ciPrefix : List Char → List Char → Option (List Char)
  | [], rest => some rest
  | _ :: _, [] => none
  | l :: lt, c :: ct => if c.toLower = l then ciPrefix lt ct else none

/-- Greedy `(?:\s+[A-Z][a-z]+){0,k}` under `IGNORECASE`: repeatedly extend
the capture with a whitespace run followed by an alphabetic run of length
at least two, at most `k` times. -/
def extendWords : Nat → List Char → List Char → List Char × List Char
  | 0, acc, cs => (acc, cs)
  | k + 1, acc, cs =>
    let ws := cs.takeWhile isSpaceCh
    if ws.isEmpty then (acc, cs)
    else
      let rest := cs.dropWhile isSpaceCh
      let run := rest.takeWhile Char.isAlpha
      let rest2 := rest.dropWhile Char.isAlpha
      if run.length ≥ 2 then extendWords k (acc ++ ws ++ run) rest2
      else (acc, cs)

/-- The lead-in alternatives of the first name pattern, in source order. -/
def nameLeadIns : List String :=
  ["my name is", "i am", "this is", "naam hai", "mera naam"]

/-- One attempt of the lead-in name pattern
`(?:my name is|i am|this is|naam hai|mera naam)\s+([A-Z][a-z]+(?:\s+[A-Z][a-z]+){0,3})`
(with `IGNORECASE`) at a fixed position; returns the captured group. -/
def tryLeadNameAt (cs : List Char) : Option String :=
  nameLeadIns.foldl
    (fun acc lead =>
      acc.orElse fun _ =>
        match ciPrefix lead.toList cs with
        | none => none
        | some rest =>
          if (rest.takeWhile isSpaceCh).isEmpty then none
          else
            let rest2 := rest.dropWhile isSpaceCh
            let run := rest2.takeWhile Char.isAlpha
            let rest3 := rest2.dropWhile Char.isAlpha
            if run.length ≥ 2 then
              some (String.mk (extendWords 3 run rest3).1)
            else none)
    none

/-- Leftmost match of the lead-in name pattern. -/
def findLeadName : List Char → Option String
  | [] => none
  | c :: rest => (tryLeadNameAt (c :: rest)).orElse fun _ => findLeadName rest

/-- The `(?:\s+[A-Z][a-z]+){1,3}$` tail of the anchored name pattern:
`count` groups consumed so far; succeeds exactly when the remainder splits
into one to three further words and ends there.  `fuel` only bounds the
recursion; every pass consumes at least one character, so the initial
budget (the message length) is never exhausted first. -/
def fullNameLoop : Nat → Nat → List Char → Bool
  | _, count, [] => decide (1 ≤ count ∧ count ≤ 3)
  | 0, _, _ => false
  | fuel + 1, count, c :: cs =>
    count < 3 && isSpaceCh c &&
      (let rest := cs.dropWhile isSpaceCh
       let run := rest.takeWhile Char.isAlpha
       let rest2 := rest.dropWhile Char.isAlpha
       run.length ≥ 2 && fullNameLoop fuel (count + 1) rest2)

/-- `re.search(r'^([A-Z][a-z]+(?:\s+[A-Z][a-z]+){1,3})$', message, re.IGNORECASE)`:
the whole message is two to four alphabetic words; the capture is the whole
message. -/
def matchFullName (cs : List Char) : Option String :=
  let run := cs.takeWhile Char.isAlpha
  let rest := cs.dropWhile Char.isAlpha
  if run.length ≥ 2 && fullNameLoop cs.length 0 rest then
    some (String.mk cs)
  else none

/-- The stop-word list guarding the bare-name fallback. -/
def question_words : List String :=
  ["what", "when", "where", "how", "why", "need", "want", "appointment",
   "doctor", "help", "please"]

/-- `symptom_keywords` from `extract_patient_info`. -/
def symptom_keywords : List String :=
  ["pain", "dard", "fever", "bukhar", "cough", "khansi", "headache",
   "sar dard", "checkup", "sick", "bimar", "body pain"]

/-- The age section of `extract_patient_info` (lines 87–97): the age-word
pattern, else — when a name is known and age is not — a standalone number
in 1–120. -/
def extractAge (message ml : String) (c : Context) : Context :=
  match findAgeMatch ml.toList with
  | some v => if c.age = none then { c with age := some v } else c
  | none =>
    if c.age = none ∧ c.name ≠ none then
      match findStandalone message.toList with
      | some v => if 1 ≤ v ∧ v ≤ 120 then { c with age := some v } else c
      | none => c
    else c

/-- The phone section of `extract_patient_info` (lines 100–102). -/
def extractPhone (message : String) (c : Context) : Context :=
  match findPhone message.toList with
  | some p => if c.phone = none then { c with phone := some p } else c
  | none => c

/-- The name section of `extract_patient_info` (lines 105–125): lead-in
pattern, anchored pattern, then the bare 2–4-word fallback. -/
def extractName (message ml : String) (c : Context) : Context :=
  if c.name = none then
    match findLeadName message.toList with
    | some nm => { c with name := some (pyTitle nm) }
    | none =>
      match matchFullName message.toList with
      | some nm => { c with name := some (pyTitle nm) }
      | none =>
        -- neither pattern matched, so the source's re-check of
        -- `'name' not in context` still holds and the fallback runs
        let words := splitWs message
        if 2 ≤ words.length ∧ words.length ≤ 4
            ∧ ¬ message.toList.any Char.isDigit
            ∧ ¬ question_words.any (fun w => strContains ml w) then
          { c with name := some (String.intercalate " " (words.map pyCapitalize)) }
        else c
  else c

/-- The reason section of `extract_patient_info` (lines 128–130): any
symptom keyword stores the whole utterance. -/
def extractReason (message ml : String) (c : Context) : Context :=
  if symptom_keywords.any (fun k => strContains ml k) && (c.reason == none) then
    { c with reason := some message }
  else c

/-- The date section of `extract_patient_info` (lines 133–137):
tomorrow/today keywords.  Note: no first-write guard in the source. -/
def extractDate (today : Nat) (ml : String) (c : Context) : Context :=
  if strContains ml "tomorrow" ∨ strContains ml "kal" then
    { c with date := some (today + 1) }
  else if strContains ml "today" ∨ strContains ml "aaj" then
    { c with date := some today }
  else c

/-- `extract_patient_info` from `clinic_agent.py`: sequentially extract
age, phone, name, reason and date from the message into the context.
`today` stands for `datetime.now().date()`. -/
def extract_patient_info (today : Nat) (message : String) (c : Context) : Context :=
  extractDate today (lowerStr message)
    (extractReason message (lowerStr message)
      (extractName message (lowerStr message)
        (extractPhone message
          (extractAge message (lowerStr message) c))))

/-! ## `app/agent/clinic_agent.py` — time parsing and the dialogue engine -/

/-- `re.search(r'(\d{1,2}):?(\d{2})?\s*(am|pm|AM|PM)?', message)` evaluated
at the first digit of the message (everything after the hour is optional,
so the leftmost match starts at the first digit): greedy 1–2 hour digits,
an optional colon, an optional two-digit minute group, `\s*`, and an
optional exact-case meridiem, returned lowered (`match.group(3).lower()`).
The second pattern of `time_patterns` is subsumed: it can only match when
this one does.  Returns `(hour, minutes group, meridiem group)`. -/
def matchTimeAt (c : Char) (rest : List Char) : Nat × Option Nat × Option String :=
  let p : List Char × List Char :=
    match rest with
    | c2 :: r => if c2.isDigit then ([c, c2], r) else ([c], rest)
    | [] => ([c], rest)
  let rest1 := p.2
  let rest2 := match rest1 with
    | ':' :: r => r
    | _ => rest1
  let q : Option Nat × List Char :=
    match rest2 with
    | a :: b :: r => if a.isDigit && b.isDigit then (some (digitsToNat [a, b]), r)
                     else (none, rest2)
    | _ => (none, rest2)
  let rest4 := q.2.dropWhile isSpaceCh
  let meridiem : Option String :=
    match rest4 with
    | 'a' :: 'm' :: _ => some "am"
    | 'p' :: 'm' :: _ => some "pm"
    | 'A' :: 'M' :: _ => some "am"
    | 'P' :: 'M' :: _ => some "pm"
    | _ => none
  (digitsToNat p.1, q.1, meridiem)

/-- Leftmost match of the time pattern over the message. -/
def findTimeMatch : List Char → Option (Nat × Option Nat × Option String)
  | [] => none
  | c :: rest => if c.isDigit then some (matchTimeAt c rest) else findTimeMatch rest

/-- The 24-hour conversion in the time-selection step:
`pm` adds 12 when the hour is below 12; `am` maps hour 12 to 0. -/
def convert24 (hour : Nat) (meridiem : Option String) : Nat :=
  if meridiem = some "pm" ∧ hour < 12 then hour + 12
  else if meridiem = some "am" ∧ hour = 12 then 0
  else hour

/-- The time the engine would record for a message: the leftmost time-pattern
match, hour normalized by `convert24`, absent minutes read as 0. -/
def parsedTime (message : String) : Option Tm :=
  (findTimeMatch message.toList).map fun r =>
    ⟨convert24 r.1 r.2.2, match r.2.1 with | some m => m | none => 0⟩

/-- The apology produced when the inline booking raises. -/
def bookingErrMsg : String :=
  "Sorry, there was an error booking your appointment."

/-- The farewell appended around `booking_result` in the time-selection step. -/
def goodbyeTail : String :=
  "Thank you for choosing our clinic! We look forward to seeing you. " ++
    "If you have any questions before your appointment, feel free to reach out. " ++
    "Take care and get well soon! 🏥😊\n\nHave a great day!"

/-- The inline booking of `generate_response` (lines 239–276): patient
lookup-or-create keyed on `context.get('phone', phone)`, then an
unconditional insert of a `confirmed` appointment — no availability check.
Returns `booking_result` and the updated store. -/
def inline_book (phone : String) (ctx : Context) (d : Nat) (t : Tm) (db : Db) :
    String × Db :=
  let pPhone := ctx.phone.getD phone
  let ps := upsertPatient (ctx.name.getD "Unknown") pPhone (ctx.age.getD 0) db.patients
  let appt : Appointment :=
    ⟨upsertedId pPhone ps, d, t, ctx.reason.getD "General consultation", "confirmed"⟩
  let result :=
    "✅ Appointment confirmed!\n\nPatient: " ++
      (match ctx.name with | some n => n | none => "None") ++
      "\nDate: " ++ toString d ++ "\nTime: " ++ fmtTime12 t ++
      "\nPhone: " ++ pPhone
  (result, ⟨ps, db.appointments ++ [appt]⟩)

/-- Result of one `generate_response` call: the reply, the context as
mutated during the call, the store, and whether the call reset the
session (`conversation_states[phone] = {'messages': [], 'context': {}}`). -/
structure GenResult where
  reply : String
  ctx : Context
  db : Db
  cleared : Bool
deriving DecidableEq, Repr

/-- STAGE 4 of `generate_response`: the time-selection and booking code the
`booking` block falls through to.  `dbFails` models `db.commit()` raising;
a missing date key, or an hour/minute `strptime` rejects, takes the same
`except` path.  Whenever a time is parsed and recorded, the session is
reset afterwards regardless of the booking outcome. -/
def stage4_time_selection (dbFails : Bool) (phone : String) (ctx : Context)
    (message : String) (db : Db) : GenResult :=
  match findTimeMatch message.toList with
  | some r =>
    if ctx.time = none then
      let hour := convert24 r.1 r.2.2
      let minute := match r.2.1 with | some m => m | none => 0
      let ctx := { ctx with time := some ⟨hour, minute⟩ }
      let br : String × Db :=
        match ctx.date with
        | none => (bookingErrMsg, db)
        | some d =>
          if dbFails ∨ 24 ≤ hour ∨ 60 ≤ minute then (bookingErrMsg, db)
          else inline_book phone ctx d ⟨hour, minute⟩ db
      ⟨"\n\n" ++ br.1 ++ "\n\n" ++ goodbyeTail, ctx, br.2, true⟩
    else
      if ctx.shown_slots ∧ ctx.time = none then
        ⟨"Please let me know which time slot you\x27d like. For example, say \x272:00 PM\x27 or \x2710:30 AM\x27", ctx, db, false⟩
      else
        ⟨"I\x27d be happy to help! Could you please provide the information I asked for?", ctx, db, false⟩
  | none =>
    if ctx.shown_slots ∧ ctx.time = none then
      ⟨"Please let me know which time slot you\x27d like. For example, say \x272:00 PM\x27 or \x2710:30 AM\x27", ctx, db, false⟩
    else
      ⟨"I\x27d be happy to help! Could you please provide the information I asked for?", ctx, db, false⟩

/-- The greeting words checked in stage 1. -/
def greetingWords : List String := ["hello", "hi", "assalam", "salam", "hey"]

/-- The positive-sentiment words of stage 2. -/
def positiveWords : List String := ["good", "fine", "great", "okay", "theek", "acha"]

/-- The negative-sentiment words of stage 2. -/
def negativeWords : List String := ["not good", "sick", "unwell", "pain", "bad", "bimar"]

/-- `generate_response` from `clinic_agent.py`.  `histLen` is
`len(history)` for the history passed in (which already contains the
current user message). -/
def generate_response (dbFails : Bool) (phone : String) (ctx : Context)
    (message : String) (histLen : Nat) (today : Nat) (db : Db) : GenResult :=
  let ml := lowerStr message
  let conversation_stage := ctx.stage.getD "greeting"
  if conversation_stage = "greeting" ∨ histLen ≤ 2 then
    let ctx := { ctx with stage := some "small_talk" }
    if greetingWords.any (fun w => strContains ml w) then
      ⟨"Hello! Welcome to our clinic. It\x27s great to hear from you! 😊\n\nHow are you doing today?",
       ctx, db, false⟩
    else
      ⟨"Hello! Welcome to our clinic. How are you doing today?", ctx, db, false⟩
  else if conversation_stage = "small_talk" then
    let response :=
      if positiveWords.any (fun w => strContains ml w) then
        "That\x27s wonderful! I\x27m glad you\x27re doing well. 😊\n\n"
      else if negativeWords.any (fun w => strContains ml w) then
        "I\x27m sorry to hear you\x27re not feeling well. We\x27re here to help you! 🏥\n\n"
      else
        "Thank you for reaching out to us! 😊\n\n"
    ⟨response ++ "I can help you book an appointment with our doctor. May I have your name please?",
     { ctx with stage := some "booking" }, db, false⟩
  else if conversation_stage = "booking" then
    let needed : List String :=
      (if ctx.name = none then ["name"] else []) ++
      (if ctx.age = none then ["age"] else []) ++
      (if ctx.phone = none then ["phone"] else []) ++
      (if ctx.reason = none then ["reason"] else []) ++
      (if ctx.date = none then ["date"] else [])
    match needed with
    | next_field :: _ =>
      let reply :=
        if next_field = "name" then "May I have your name please?"
        else if next_field = "age" then
          "Thank you, " ++ ctx.name.getD "" ++ "! What is your age?"
        else if next_field = "phone" then "Great! What is your phone number?"
        else if next_field = "reason" then
          "I understand. What is the main health concern you\x27d like to see the doctor for?"
        else "Got it. Which date would you prefer for your appointment?"
      ⟨reply, ctx, db, false⟩
    | [] =>
      if ctx.date ≠ none ∧ ctx.time = none ∧ ctx.shown_slots = false then
        let slots_result := get_available_slots today db.appointments (ctx.date.getD 0)
        ⟨slots_result ++ "\n\nWhich time works best for you?",
         { ctx with shown_slots := true }, db, false⟩
      else
        stage4_time_selection dbFails phone ctx message db
  else
    stage4_time_selection dbFails phone ctx message db

/-- Per-phone state held in `conversation_states`: role-tagged messages
plus the context map. -/
structure SessionState where
  messages : List (String × String)
  context : Context
deriving DecidableEq, Repr

/-- The fresh state `{'messages': [], 'context': {}}`. -/
def emptySession : SessionState := ⟨[], emptyContext⟩

/-- `chat_with_agent` from `clinic_agent.py`: append the user message,
short-circuit on urgency, otherwise extract fields and generate the
response.  When `generate_response` reset the session, the stored state is
the fresh one (the assistant-message append then lands on the discarded
dict).  Returns the reply, the stored session state, and the store. -/
def chat_with_agent (today : Nat) (dbFails : Bool) (db : Db) (phone : String)
    (st : SessionState) (message : String) : String × SessionState × Db :=
  let msgs := st.messages ++ [("user", message)]
  if is_urgent message then
    (urgentAdvisory, ⟨msgs ++ [("assistant", urgentAdvisory)], st.context⟩, db)
  else
    let context := extract_patient_info today message st.context
    let r := generate_response dbFails phone context message msgs.length today db
    if r.cleared then (r.reply, emptySession, r.db)
    else (r.reply, ⟨msgs ++ [("assistant", r.reply)], r.ctx⟩, r.db)

/-- Session states reachable from a fresh session through `chat_with_agent`
turns (any dates, messages, stores and failure outcomes). -/
inductive Reachable : SessionState → Prop
  | init : Reachable emptySession
  | step {st : SessionState} (today : Nat) (dbFails : Bool) (db : Db)
      (phone message : String) :
      Reachable st →
      Reachable (chat_with_agent today dbFails db phone st message).2.1

/-! ## Specification-side definitions (for comparison with the code) -/

/-- Claim C9's description of availability: the grid slots for `d` minus
the times of all non-cancelled appointments on `d` (`pending`,
`confirmed` and `completed` all excluded).  Written from the claim
words, to be compared with `availableList`. -/
def availableSlotsSpecClaim (appts : List Appointment) (d : Nat) : List Tm :=
  generate_time_slots.filter fun t =>
    !(appts.any fun a => a.date == d && a.time == t && !(a.status == "cancelled"))

/-- Claim C7's description of 24-hour normalization: a PM marker adds 12
to the hour unless the hour is already 12; an AM marker maps hour 12 to 0;
no marker leaves the hour as given.  Written from the claim words, to be
compared with `convert24`. -/
def claimNormalize24 (hour : Nat) (meridiem : Option String) : Nat :=
  if meridiem = some "pm" then (if hour = 12 then 12 else hour + 12)
  else if meridiem = some "am" then (if hour = 12 then 0 else hour)
  else hour

/-- The time claim C7 says the engine records for a message. -/
def claimParsedTime (message : String) : Option Tm :=
  (findTimeMatch message.toList).map fun r =>
    ⟨claimNormalize24 r.1 r.2.2, match r.2.1 with | some m => m | none => 0⟩

/-- The 24-hour normalization the code actually performs, written out for
the amended claim C7: PM adds 12 only when the hour is strictly below 12
(hour 12 and hours above 12 are unchanged); AM maps hour 12 to 0. -/
def amended24 (hour : Nat) (meridiem : Option String) : Nat :=
  if meridiem = some "pm" then (if hour < 12 then hour + 12 else hour)
  else if meridiem = some "am" then (if hour = 12 then 0 else hour)
  else hour

/-- The arguments of one `book_appointment` call. -/
structure ToolOp where
  name : String
  phone : String
  age : Nat
  date : Nat
  time : Tm
  reason : String

/-- Run a sequence of `book_appointment` commits against a store. -/
def runTools (ops : List ToolOp) (db : Db) : Db :=
  ops.foldl
    (fun db op => (book_appointment op.name op.phone op.age op.date op.time op.reason db).2)
    db

/-- The stage values `generate_response` can leave in a stored context
(the key is also absent in a fresh context); `Reachable` states satisfy
this. -/
def stageValid (c : Context) : Prop :=
  c.stage = none ∨ c.stage = some "small_talk" ∨ c.stage = some "booking"

/-! ## Lemmas about the field extractor -/

/-- `extractAge` either leaves the context alone or, when age was unset,
sets only the age field. -/
theorem extractAge_cases (m ml : String) (c : Context) :
    extractAge m ml c = c ∨ (c.age = none ∧ ∃ v, extractAge m ml c = { c with age := some v }) := by
  unfold extractAge
  cases hfa : findAgeMatch ml.toList with
  | some v =>
    by_cases h : c.age = none
    · right; exact ⟨h, v, by simp [h]⟩
    · left; simp [h]
  | none =>
    cases hfs : findStandalone m.toList with
    | some v =>
      by_cases h : c.age = none ∧ c.name ≠ none
      · by_cases hr : 1 ≤ v ∧ v ≤ 120
        · right; exact ⟨h.1, v, by simp [h, hr]⟩
        · left; simp [h, hr]
      · left; simp [h]
    | none =>
      by_cases h : c.age = none ∧ c.name ≠ none <;> left <;> simp [h]

/-- `extractPhone` either leaves the context alone or, when phone was
unset, sets only the phone field. -/
theorem extractPhone_cases (m : String) (c : Context) :
    extractPhone m c = c ∨ (c.phone = none ∧ ∃ p, extractPhone m c = { c with phone := some p }) := by
  unfold extractPhone
  cases hfp : findPhone m.toList with
  | some p =>
    by_cases h : c.phone = none
    · right; exact ⟨h, p, by simp [h]⟩
    · left; simp [h]
  | none => left; rfl

/-- `extractName` either leaves the context alone or, when name was unset,
sets only the name field. -/
theorem extractName_cases (m ml : String) (c : Context) :
    extractName m ml c = c ∨ (c.name = none ∧ ∃ nm, extractName m ml c = { c with name := some nm }) := by
  unfold extractName
  by_cases h : c.name = none
  · rw [if_pos h]
    cases hfl : findLeadName m.toList with
    | some nm => right; exact ⟨h, pyTitle nm, rfl⟩
    | none =>
      cases hfm : matchFullName m.toList with
      | some nm => right; exact ⟨h, pyTitle nm, rfl⟩
      | none =>
        by_cases hcond : 2 ≤ (splitWs m).length ∧ (splitWs m).length ≤ 4
            ∧ ¬ m.toList.any Char.isDigit ∧ ¬ question_words.any (fun w => strContains ml w)
        · right
          exact ⟨h, String.intercalate " " ((splitWs m).map pyCapitalize),
            by simp only [if_pos hcond]⟩
        · left; simp only [if_neg hcond]
  · left; rw [if_neg h]

/-- `extractReason` either leaves the context alone or, when reason was
unset, stores the utterance in the reason field. -/
theorem extractReason_cases (m ml : String) (c : Context) :
    extractReason m ml c = c ∨ (c.reason = none ∧ extractReason m ml c = { c with reason := some m }) := by
  unfold extractReason
  split
  case isTrue hcond =>
    right
    refine ⟨?_, rfl⟩
    have := (Bool.and_eq_true _ _).mp hcond
    simpa using this.2
  case isFalse => left; rfl

/-- `extractDate` only ever touches the date field. -/
theorem extractDate_cases (t : Nat) (ml : String) (c : Context) :
    extractDate t ml c = c ∨ ∃ v, extractDate t ml c = { c with date := some v } := by
  unfold extractDate
  split
  · right; exact ⟨_, rfl⟩
  · split
    · right; exact ⟨_, rfl⟩
    · left; rfl

/-- The date `extractDate` leaves behind: overwritten whenever a date
keyword occurs, kept otherwise. -/
theorem extractDate_date (t : Nat) (ml : String) (c : Context) :
    (extractDate t ml c).date =
      (if strContains ml "tomorrow" ∨ strContains ml "kal" then some (t + 1)
       else if strContains ml "today" ∨ strContains ml "aaj" then some t
       else c.date) := by
  unfold extractDate
  split
  · rfl
  · split <;> rfl

theorem extractAge_name (m ml : String) (c : Context) : (extractAge m ml c).name = c.name := by
  rcases extractAge_cases m ml c with h | ⟨-, v, h⟩ <;> rw [h]

theorem extractAge_phone (m ml : String) (c : Context) : (extractAge m ml c).phone = c.phone := by
  rcases extractAge_cases m ml c with h | ⟨-, v, h⟩ <;> rw [h]

theorem extractAge_reason (m ml : String) (c : Context) : (extractAge m ml c).reason = c.reason := by
  rcases extractAge_cases m ml c with h | ⟨-, v, h⟩ <;> rw [h]

theorem extractAge_date (m ml : String) (c : Context) : (extractAge m ml c).date = c.date := by
  rcases extractAge_cases m ml c with h | ⟨-, v, h⟩ <;> rw [h]

theorem extractAge_time (m ml : String) (c : Context) : (extractAge m ml c).time = c.time := by
  rcases extractAge_cases m ml c with h | ⟨-, v, h⟩ <;> rw [h]

theorem extractAge_stage (m ml : String) (c : Context) : (extractAge m ml c).stage = c.stage := by
  rcases extractAge_cases m ml c with h | ⟨-, v, h⟩ <;> rw [h]

theorem extractAge_shown (m ml : String) (c : Context) :
    (extractAge m ml c).shown_slots = c.shown_slots := by
  rcases extractAge_cases m ml c with h | ⟨-, v, h⟩ <;> rw [h]

theorem extractAge_age_keep (m ml : String) (c : Context) (v : Nat) (h : c.age = some v) :
    (extractAge m ml c).age = some v := by
  rcases extractAge_cases m ml c with he | ⟨hn, w, he⟩
  · rw [he]; exact h
  · simp [hn] at h

theorem extractPhone_name (m : String) (c : Context) : (extractPhone m c).name = c.name := by
  rcases extractPhone_cases m c with h | ⟨-, p, h⟩ <;> rw [h]

theorem extractPhone_age (m : String) (c : Context) : (extractPhone m c).age = c.age := by
  rcases extractPhone_cases m c with h | ⟨-, p, h⟩ <;> rw [h]

theorem extractPhone_reason (m : String) (c : Context) : (extractPhone m c).reason = c.reason := by
  rcases extractPhone_cases m c with h | ⟨-, p, h⟩ <;> rw [h]

theorem extractPhone_date (m : String) (c : Context) : (extractPhone m c).date = c.date := by
  rcases extractPhone_cases m c with h | ⟨-, p, h⟩ <;> rw [h]

theorem extractPhone_time (m : String) (c : Context) : (extractPhone m c).time = c.time := by
  rcases extractPhone_cases m c with h | ⟨-, p, h⟩ <;> rw [h]

theorem extractPhone_stage (m : String) (c : Context) : (extractPhone m c).stage = c.stage := by
  rcases extractPhone_cases m c with h | ⟨-, p, h⟩ <;> rw [h]

theorem extractPhone_shown (m : String) (c : Context) :
    (extractPhone m c).shown_slots = c.shown_slots := by
  rcases extractPhone_cases m c with h | ⟨-, p, h⟩ <;> rw [h]

theorem extractPhone_phone_keep (m : String) (c : Context) (v : String) (h : c.phone = some v) :
    (extractPhone m c).phone = some v := by
  rcases extractPhone_cases m c with he | ⟨hn, p, he⟩
  · rw [he]; exact h
  · simp [hn] at h

theorem extractName_age (m ml : String) (c : Context) : (extractName m ml c).age = c.age := by
  rcases extractName_cases m ml c with h | ⟨-, nm, h⟩ <;> rw [h]

theorem extractName_phone (m ml : String) (c : Context) : (extractName m ml c).phone = c.phone := by
  rcases extractName_cases m ml c with h | ⟨-, nm, h⟩ <;> rw [h]

theorem extractName_reason (m ml : String) (c : Context) : (extractName m ml c).reason = c.reason := by
  rcases extractName_cases m ml c with h | ⟨-, nm, h⟩ <;> rw [h]

theorem extractName_date (m ml : String) (c : Context) : (extractName m ml c).date = c.date := by
  rcases extractName_cases m ml c with h | ⟨-, nm, h⟩ <;> rw [h]

theorem extractName_time (m ml : String) (c : Context) : (extractName m ml c).time = c.time := by
  rcases extractName_cases m ml c with h | ⟨-, nm, h⟩ <;> rw [h]

theorem extractName_stage (m ml : String) (c : Context) : (extractName m ml c).stage = c.stage := by
  rcases extractName_cases m ml c with h | ⟨-, nm, h⟩ <;> rw [h]

theorem extractName_shown (m ml : String) (c : Context) :
    (extractName m ml c).shown_slots = c.shown_slots := by
  rcases extractName_cases m ml c with h | ⟨-, nm, h⟩ <;> rw [h]

theorem extractName_name_keep (m ml : String) (c : Context) (v : String) (h : c.name = some v) :
    (extractName m ml c).name = some v := by
  rcases extractName_cases m ml c with he | ⟨hn, nm, he⟩
  · rw [he]; exact h
  · simp [hn] at h

theorem extractReason_name (m ml : String) (c : Context) : (extractReason m ml c).name = c.name := by
  rcases extractReason_cases m ml c with h | ⟨-, h⟩ <;> rw [h]

theorem extractReason_age (m ml : String) (c : Context) : (extractReason m ml c).age = c.age := by
  rcases extractReason_cases m ml c with h | ⟨-, h⟩ <;> rw [h]

theorem extractReason_phone (m ml : String) (c : Context) : (extractReason m ml c).phone = c.phone := by
  rcases extractReason_cases m ml c with h | ⟨-, h⟩ <;> rw [h]

theorem extractReason_date (m ml : String) (c : Context) : (extractReason m ml c).date = c.date := by
  rcases extractReason_cases m ml c with h | ⟨-, h⟩ <;> rw [h]

theorem extractReason_time (m ml : String) (c : Context) : (extractReason m ml c).time = c.time := by
  rcases extractReason_cases m ml c with h | ⟨-, h⟩ <;> rw [h]

theorem extractReason_stage (m ml : String) (c : Context) : (extractReason m ml c).stage = c.stage := by
  rcases extractReason_cases m ml c with h | ⟨-, h⟩ <;> rw [h]

theorem extractReason_shown (m ml : String) (c : Context) :
    (extractReason m ml c).shown_slots = c.shown_slots := by
  rcases extractReason_cases m ml c with h | ⟨-, h⟩ <;> rw [h]

theorem extractReason_reason_keep (m ml : String) (c : Context) (v : String)
    (h : c.reason = some v) : (extractReason m ml c).reason = some v := by
  rcases extractReason_cases m ml c with he | ⟨hn, he⟩
  · rw [he]; exact h
  · simp [hn] at h

theorem extractDate_name (t : Nat) (ml : String) (c : Context) :
    (extractDate t ml c).name = c.name := by
  rcases extractDate_cases t ml c with h | ⟨v, h⟩ <;> rw [h]

theorem extractDate_age (t : Nat) (ml : String) (c : Context) :
    (extractDate t ml c).age = c.age := by
  rcases extractDate_cases t ml c with h | ⟨v, h⟩ <;> rw [h]

theorem extractDate_phone (t : Nat) (ml : String) (c : Context) :
    (extractDate t ml c).phone = c.phone := by
  rcases extractDate_cases t ml c with h | ⟨v, h⟩ <;> rw [h]

theorem extractDate_reason (t : Nat) (ml : String) (c : Context) :
    (extractDate t ml c).reason = c.reason := by
  rcases extractDate_cases t ml c with h | ⟨v, h⟩ <;> rw [h]

theorem extractDate_time (t : Nat) (ml : String) (c : Context) :
    (extractDate t ml c).time = c.time := by
  rcases extractDate_cases t ml c with h | ⟨v, h⟩ <;> rw [h]

theorem extractDate_stage (t : Nat) (ml : String) (c : Context) :
    (extractDate t ml c).stage = c.stage := by
  rcases extractDate_cases t ml c with h | ⟨v, h⟩ <;> rw [h]

theorem extractDate_shown (t : Nat) (ml : String) (c : Context) :
    (extractDate t ml c).shown_slots = c.shown_slots := by
  rcases extractDate_cases t ml c with h | ⟨v, h⟩ <;> rw [h]

theorem epi_time (t : Nat) (m : String) (c : Context) :
    (extract_patient_info t m c).time = c.time := by
  unfold extract_patient_info
  rw [extractDate_time, extractReason_time, extractName_time, extractPhone_time, extractAge_time]

theorem epi_stage (t : Nat) (m : String) (c : Context) :
    (extract_patient_info t m c).stage = c.stage := by
  unfold extract_patient_info
  rw [extractDate_stage, extractReason_stage, extractName_stage, extractPhone_stage,
    extractAge_stage]

theorem epi_shown (t : Nat) (m : String) (c : Context) :
    (extract_patient_info t m c).shown_slots = c.shown_slots := by
  unfold extract_patient_info
  rw [extractDate_shown, extractReason_shown, extractName_shown, extractPhone_shown,
    extractAge_shown]

theorem epi_name_keep (t : Nat) (m : String) (c : Context) (v : String) (h : c.name = some v) :
    (extract_patient_info t m c).name = some v := by
  unfold extract_patient_info
  rw [extractDate_name, extractReason_name]
  exact extractName_name_keep _ _ _ _ (by rw [extractPhone_name, extractAge_name]; exact h)

theorem epi_age_keep (t : Nat) (m : String) (c : Context) (v : Nat) (h : c.age = some v) :
    (extract_patient_info t m c).age = some v := by
  unfold extract_patient_info
  rw [extractDate_age, extractReason_age, extractName_age, extractPhone_age]
  exact extractAge_age_keep _ _ _ _ h

theorem epi_phone_keep (t : Nat) (m : String) (c : Context) (v : String) (h : c.phone = some v) :
    (extract_patient_info t m c).phone = some v := by
  unfold extract_patient_info
  rw [extractDate_phone, extractReason_phone, extractName_phone]
  exact extractPhone_phone_keep _ _ _ (by rw [extractAge_phone]; exact h)

theorem epi_reason_keep (t : Nat) (m : String) (c : Context) (v : String) (h : c.reason = some v) :
    (extract_patient_info t m c).reason = some v := by
  unfold extract_patient_info
  rw [extractDate_reason]
  exact extractReason_reason_keep _ _ _ _
    (by rw [extractName_reason, extractPhone_reason, extractAge_reason]; exact h)

theorem epi_date (t : Nat) (m : String) (c : Context) :
    (extract_patient_info t m c).date =
      (if strContains (lowerStr m) "tomorrow" ∨ strContains (lowerStr m) "kal" then some (t + 1)
       else if strContains (lowerStr m) "today" ∨ strContains (lowerStr m) "aaj" then some t
       else c.date) := by
  unfold extract_patient_info
  rw [extractDate_date, extractReason_date, extractName_date, extractPhone_date, extractAge_date]

/-! ## Lemmas about the booking ledger -/

/-- `countActive` distributes over list append. -/
theorem countActive_append (l1 l2 : List Appointment) (d : Nat) (t : Tm) :
    countActive (l1 ++ l2) d t = countActive l1 d t + countActive l2 d t := by
  unfold countActive
  rw [List.filter_append, List.length_append]

/-- `countActive` of a single appointment. -/
theorem countActive_singleton (a : Appointment) (d : Nat) (t : Tm) :
    countActive [a] d t = if isActiveAt d t a then 1 else 0 := by
  unfold countActive
  by_cases h : isActiveAt d t a <;> simp [h]

/-- A failed conflict check means no active appointment at the slot. -/
theorem find?_none_countActive (l : List Appointment) (d : Nat) (t : Tm)
    (h : l.find? (isActiveAt d t) = none) : countActive l d t = 0 := by
  unfold countActive
  rw [List.length_eq_zero]
  rw [List.filter_eq_nil_iff]
  intro a ha
  exact List.find?_eq_none.mp h a ha

/-- One `book_appointment` call preserves the at-most-one-active
invariant. -/
theorem book_appointment_preserves (n p : String) (ag : Nat) (d0 : Nat) (t0 : Tm)
    (r : String) (db : Db) (hInv : ∀ d t, countActive db.appointments d t ≤ 1) :
    ∀ d t, countActive (book_appointment n p ag d0 t0 r db).2.appointments d t ≤ 1 := by
  intro d t
  unfold book_appointment
  split
  · exact hInv d t
  · cases hf : db.appointments.find? (isActiveAt d0 t0) with
    | some a => exact hInv d t
    | none =>
      simp only
      rw [countActive_append, countActive_singleton]
      by_cases hat : isActiveAt d t ⟨upsertedId p (upsertPatient n p ag db.patients), d0, t0, r, "confirmed"⟩ = true
      · have hd : d0 = d ∧ t0 = t := by
          unfold isActiveAt at hat
          simp only [Bool.and_eq_true, beq_iff_eq] at hat
          exact ⟨hat.1.1, hat.1.2⟩
        rw [hd.1, hd.2] at hf
        rw [find?_none_countActive db.appointments d t hf]
        simp [hat]
      · rw [if_neg hat]
        have := hInv d t
        omega

/-- Any sequence of `book_appointment` commits preserves the
at-most-one-active invariant. -/
theorem runTools_preserves (ops : List ToolOp) (db : Db)
    (hInv : ∀ d t, countActive db.appointments d t ≤ 1) :
    ∀ d t, countActive (runTools ops db).appointments d t ≤ 1 := by
  induction ops generalizing db with
  | nil => exact hInv
  | cons op rest ih =>
    exact ih _ (book_appointment_preserves op.name op.phone op.age op.date op.time op.reason db hInv)

/-- Membership in the booked-times set agrees with the active-appointment
predicate. -/
theorem booked_contains (appts : List Appointment) (d : Nat) (t : Tm) :
    ((appts.filter (fun a => a.date == d &&
        (a.status == "pending" || a.status == "confirmed"))).map (·.time)).contains t
      = appts.any (isActiveAt d t) := by
  rw [Bool.eq_iff_iff, List.elem_iff, List.any_eq_true]
  constructor
  · intro hm
    rcases List.mem_map.mp hm with ⟨a, haf, hat⟩
    rcases List.mem_filter.mp haf with ⟨ha, hcond⟩
    refine ⟨a, ha, ?_⟩
    unfold isActiveAt
    rcases (Bool.and_eq_true _ _).mp hcond with ⟨h1, h2⟩
    simp [h1, h2, hat]
  · rintro ⟨a, ha, hact⟩
    unfold isActiveAt at hact
    simp only [Bool.and_eq_true, beq_iff_eq] at hact
    apply List.mem_map.mpr
    refine ⟨a, List.mem_filter.mpr ⟨ha, ?_⟩, hact.1.2⟩
    simp [hact.1.1, hact.2]

/-! ## Lemmas about the dialogue engine -/

/-- When the commit raises, the time-selection step replies with the
apology wrapped in the farewell and leaves the store unchanged. -/
theorem stage4_dbFails (phone : String) (ctx : Context) (m : String) (db : Db)
    (h : (stage4_time_selection true phone ctx m db).cleared = true) :
    (stage4_time_selection true phone ctx m db).reply =
        "\n\n" ++ bookingErrMsg ++ "\n\n" ++ goodbyeTail ∧
      (stage4_time_selection true phone ctx m db).db = db := by
  unfold stage4_time_selection at h ⊢
  cases hm : findTimeMatch m.toList with
  | none =>
    exfalso
    split at h
    · simp_all
    · split at h <;> simp_all
  | some r =>
    by_cases ht : ctx.time = none
    · cases hd : ctx.date <;> simp [ht, hd]
    · exfalso
      split at h
      · rw [if_neg ht] at h
        split at h <;> simp_all
      · simp_all

/-- A turn that reset the session is one that reached the time-selection
step. -/
theorem gen_cleared_eq_stage4 (dbFails : Bool) (phone : String) (ctx : Context) (m : String)
    (histLen today : Nat) (db : Db)
    (h : (generate_response dbFails phone ctx m histLen today db).cleared = true) :
    generate_response dbFails phone ctx m histLen today db =
      stage4_time_selection dbFails phone ctx m db := by
  unfold generate_response at h ⊢
  by_cases hc1 : (ctx.stage.getD "greeting") = "greeting" ∨ histLen ≤ 2
  · exfalso
    rw [if_pos hc1] at h
    split at h <;> simp_all
  · rw [if_neg hc1] at h ⊢
    by_cases hc2 : (ctx.stage.getD "greeting") = "small_talk"
    · exfalso
      rw [if_pos hc2] at h
      simp at h
    · rw [if_neg hc2] at h ⊢
      by_cases hc3 : (ctx.stage.getD "greeting") = "booking"
      · rw [if_pos hc3] at h ⊢
        rcases hE : (if ctx.name = none then ["name"] else []) ++
            (if ctx.age = none then ["age"] else []) ++
            (if ctx.phone = none then ["phone"] else []) ++
            (if ctx.reason = none then ["reason"] else []) ++
            (if ctx.date = none then ["date"] else []) with _ | ⟨f, rest⟩
        · simp only [hE] at h ⊢
          by_cases hc4 : ctx.date ≠ none ∧ ctx.time = none ∧ ctx.shown_slots = false
          · exfalso
            rw [if_pos hc4] at h
            simp at h
          · rw [if_neg hc4] at h ⊢
        · exfalso
          simp only [hE] at h
          simp at h
      · rw [if_neg hc3] at h ⊢

/-- The time-selection step never changes the stage. -/
theorem stage4_stage (dbFails : Bool) (phone : String) (ctx : Context) (m : String) (db : Db) :
    (stage4_time_selection dbFails phone ctx m db).ctx.stage = ctx.stage := by
  unfold stage4_time_selection
  cases hm : findTimeMatch m.toList with
  | none =>
    split
    · simp_all
    · split <;> rfl
  | some r =>
    split
    · by_cases ht : ctx.time = none
      · rw [if_pos ht]
      · rw [if_neg ht]
        split <;> rfl
    · simp_all

/-- The stage a turn leaves behind is `small_talk`, `booking`, or the
incoming one. -/
theorem gen_stage (dbFails : Bool) (phone : String) (ctx : Context) (m : String)
    (histLen today : Nat) (db : Db) :
    (generate_response dbFails phone ctx m histLen today db).ctx.stage = some "small_talk" ∨
    (generate_response dbFails phone ctx m histLen today db).ctx.stage = some "booking" ∨
    (generate_response dbFails phone ctx m histLen today db).ctx.stage = ctx.stage := by
  unfold generate_response
  by_cases hc1 : (ctx.stage.getD "greeting") = "greeting" ∨ histLen ≤ 2
  · rw [if_pos hc1]
    left
    split <;> rfl
  · rw [if_neg hc1]
    by_cases hc2 : (ctx.stage.getD "greeting") = "small_talk"
    · rw [if_pos hc2]
      right; left; rfl
    · rw [if_neg hc2]
      by_cases hc3 : (ctx.stage.getD "greeting") = "booking"
      · rw [if_pos hc3]
        rcases hE : (if ctx.name = none then ["name"] else []) ++
            (if ctx.age = none then ["age"] else []) ++
            (if ctx.phone = none then ["phone"] else []) ++
            (if ctx.reason = none then ["reason"] else []) ++
            (if ctx.date = none then ["date"] else []) with _ | ⟨f, rest⟩
        · simp only [hE]
          split
          · right; right; rfl
          · right; right; exact stage4_stage dbFails phone ctx m db
        · right; right
          simp [hE]
      · rw [if_neg hc3]
        right; right
        exact stage4_stage dbFails phone ctx m db

/-- One `chat_with_agent` turn preserves stage validity. -/
theorem chat_stageValid (today : Nat) (dbFails : Bool) (db : Db) (phone : String)
    (st : SessionState) (m : String) (hv : stageValid st.context) :
    stageValid (chat_with_agent today dbFails db phone st m).2.1.context := by
  unfold chat_with_agent
  dsimp only
  split
  · exact hv
  · split
    · left; rfl
    · have hst : (extract_patient_info today m st.context).stage = st.context.stage :=
        epi_stage today m st.context
      rcases gen_stage dbFails phone (extract_patient_info today m st.context) m
          (st.messages ++ [("user", m)]).length today db with h | h | h
      · right; left; exact h
      · right; right; exact h
      · unfold stageValid
        rw [h, hst]
        exact hv

/-- Every reachable session state carries a valid stage. -/
theorem reachable_stageValid (st : SessionState) (h : Reachable st) : stageValid st.context := by
  induction h with
  | init => left; rfl
  | step today dbFails db phone m _ ih => exact chat_stageValid today dbFails db phone _ m ih

/-- With a valid stage and slots not yet shown, a turn never resets the
session, never records a time, and never touches the store. -/
theorem gen_not_shown (dbFails : Bool) (phone : String) (ctx : Context) (m : String)
    (histLen today : Nat) (db : Db) (hv : stageValid ctx) (hs : ctx.shown_slots = false) :
    ((generate_response dbFails phone ctx m histLen today db).cleared,
     (generate_response dbFails phone ctx m histLen today db).ctx.time,
     (generate_response dbFails phone ctx m histLen today db).db) =
      (false, ctx.time, db) := by
  unfold generate_response
  by_cases hc1 : (ctx.stage.getD "greeting") = "greeting" ∨ histLen ≤ 2
  · rw [if_pos hc1]
    split <;> rfl
  · rw [if_neg hc1]
    by_cases hc2 : (ctx.stage.getD "greeting") = "small_talk"
    · rw [if_pos hc2]
    · rw [if_neg hc2]
      have hc3 : (ctx.stage.getD "greeting") = "booking" := by
        rcases hv with h | h | h
        · exact absurd (Or.inl (by rw [h]; rfl)) hc1
        · exact absurd (by rw [h]; rfl) hc2
        · rw [h]; rfl
      rw [if_pos hc3]
      rcases hE : (if ctx.name = none then ["name"] else []) ++
          (if ctx.age = none then ["age"] else []) ++
          (if ctx.phone = none then ["phone"] else []) ++
          (if ctx.reason = none then ["reason"] else []) ++
          (if ctx.date = none then ["date"] else []) with _ | ⟨f, rest⟩
      · simp only [hE]
        have hdate : ctx.date ≠ none := by
          intro hd
          rw [hd] at hE
          simp at hE
        by_cases htime : ctx.time = none
        · rw [if_pos ⟨hdate, htime, hs⟩]
        · rw [if_neg (fun hh => htime hh.2.1)]
          unfold stage4_time_selection
          cases hm : findTimeMatch m.toList with
          | none =>
            split
            · rename_i heq
              exact absurd heq (by simp)
            · split <;> rfl
          | some r =>
            split
            · rw [if_neg htime]
              split <;> rfl
            · rename_i heq
              exact absurd heq (by simp)
      · simp only [hE]

/-- Chat-level version of `gen_not_shown`: before slots are shown, a turn
leaves the time field and the store unchanged. -/
theorem chat_not_shown (today : Nat) (dbFails : Bool) (db : Db) (phone : String)
    (st : SessionState) (m : String) (hv : stageValid st.context)
    (hs : st.context.shown_slots = false) :
    (chat_with_agent today dbFails db phone st m).2.1.context.time = st.context.time ∧
    (chat_with_agent today dbFails db phone st m).2.2 = db := by
  unfold chat_with_agent
  dsimp only
  split
  · exact ⟨rfl, rfl⟩
  · have hv' : stageValid (extract_patient_info today m st.context) := by
      unfold stageValid
      rw [epi_stage]
      exact hv
    have hs' : (extract_patient_info today m st.context).shown_slots = false := by
      rw [epi_shown]
      exact hs
    have hg := gen_not_shown dbFails phone (extract_patient_info today m st.context) m
        (st.messages ++ [("user", m)]).length today db hv' hs'
    simp only [Prod.mk.injEq] at hg
    obtain ⟨h1, h2, h3⟩ := hg
    split
    · rename_i hcl
      rw [h1] at hcl
      simp at hcl
    · exact ⟨h2.trans (epi_time today m st.context), h3⟩

/-- The available list is the grid filtered by the active-appointment
predicate. -/
theorem availableList_eq_active_filter (appts : List Appointment) (d : Nat) :
    availableList appts d =
      generate_time_slots.filter (fun t => !(appts.any (isActiveAt d t))) := by
  unfold availableList
  apply List.filter_congr
  intro t _
  rw [booked_contains]

/-- A `completed` or `cancelled` appointment does not change the available
list. -/
theorem availableList_cons_inactive (a : Appointment) (appts : List Appointment) (d : Nat)
    (h : a.status = "completed" ∨ a.status = "cancelled") :
    availableList (a :: appts) d = availableList appts d := by
  unfold availableList
  rw [List.filter_cons_of_neg]
  rcases h with h | h <;> simp [h]

/-- A `completed` or `cancelled` appointment does not change the
`get_available_slots` reply. -/
theorem get_available_slots_cons_inactive (today : Nat) (a : Appointment)
    (appts : List Appointment) (d : Nat) (h : a.status = "completed" ∨ a.status = "cancelled") :
    get_available_slots today (a :: appts) d = get_available_slots today appts d := by
  unfold get_available_slots
  rw [show availableList (a :: appts) d = availableList appts d from
    availableList_cons_inactive a appts d h]

/-- C3 (amended): when the booking commit fails and the turn reaches the
time-selection step, the reply embeds the generic booking apology inside
the farewell, the store is unchanged — but the session state is reset, so
the field context is cleared rather than preserved. -/
theorem c3_booking_failure_amended (today : Nat) (db : Db) (phone : String)
    (st : SessionState) (m : String) (hu : is_urgent m = false)
    (hc : (generate_response true phone (extract_patient_info today m st.context) m
        (st.messages ++ [("user", m)]).length today db).cleared = true) :
    chat_with_agent today true db phone st m =
      ("\n\n" ++ bookingErrMsg ++ "\n\n" ++ goodbyeTail, emptySession, db) := by
  unfold chat_with_agent
  dsimp only
  rw [if_neg (by rw [hu]; exact Bool.false_ne_true)]
  rw [if_pos hc]
  have he := gen_cleared_eq_stage4 true phone (extract_patient_info today m st.context) m
      (st.messages ++ [("user", m)]).length today db hc
  rw [he] at hc ⊢
  have hf := stage4_dbFails phone (extract_patient_info today m st.context) m db hc
  rw [hf.1, hf.2]

/-- The fully-booked reply always differs from the past-date reply:
the two outcomes are distinguishable. -/
theorem fullyBooked_ne_pastDate (s : String) : fullyBookedMsg s ≠ pastDateMsg := by
  intro h
  have hd : (fullyBookedMsg s).data = pastDateMsg.data := congrArg String.data h
  unfold fullyBookedMsg at hd
  rw [String.data_append, String.data_append] at hd
  have hlen : ("Sorry, no slots available on ".data).length = 29 := by decide
  have h7 := congrArg (fun l : List Char => l[7]?) hd
  simp only at h7
  rw [List.getElem?_append_left (by rw [List.length_append, hlen]; omega)] at h7
  rw [List.getElem?_append_left (by rw [hlen]; omega)] at h7
  revert h7
  decide

/-- The code's 24-hour conversion agrees with the amended description. -/
theorem convert24_eq_amended24 (h : Nat) (mer : Option String) :
    convert24 h mer = amended24 h mer := by
  unfold convert24 amended24
  rcases mer with _ | s
  · simp
  · by_cases hpm : s = "pm"
    · subst hpm
      by_cases hlt : h < 12 <;> simp [hlt]
    · by_cases ham : s = "am"
      · subst ham
        by_cases h12 : h = 12 <;> simp [h12, hpm]
      · simp [hpm, ham]

/-! ## Claim theorems -/

set_option maxRecDepth 200000

/-- The iteration budget of `slotsLoop` is saturated at the configured
clinic constants: extra fuel does not change the grid. -/
theorem slotsLoop_fuel_saturates :
    slotsLoop (CLINIC_END_HOUR * 60) CLINIC_START_HOUR 0 =
      slotsLoop (CLINIC_END_HOUR * 60 + 600) CLINIC_START_HOUR 0 := by decide

/-- C1 counterexample: two dialogue-engine slot-selection commits for the
same date and time both succeed — the inline booking performs no
availability check — leaving two `confirmed` appointments at (120, 11:00),
so the at-most-one-active property fails for commits made through the
dialogue engine. -/
theorem c1_counterexample :
    countActive
        ((generate_response false "pb"
            { name := some "Sara Bibi", age := some 25, phone := some "03003334444",
              reason := some "cough", date := some 120, stage := some "booking",
              shown_slots := true } "11 am" 9 100
            (generate_response false "pa"
              { name := some "Ali Khan", age := some 30, phone := some "03001112222",
                reason := some "fever", date := some 120, stage := some "booking",
                shown_slots := true } "11 am" 9 100 emptyDb).db).db).appointments
        120 ⟨11, 0⟩ = 2 ∧
    ¬ countActive
        ((generate_response false "pb"
            { name := some "Sara Bibi", age := some 25, phone := some "03003334444",
              reason := some "cough", date := some 120, stage := some "booking",
              shown_slots := true } "11 am" 9 100
            (generate_response false "pa"
              { name := some "Ali Khan", age := some 30, phone := some "03001112222",
                reason := some "fever", date := some 120, stage := some "booking",
                shown_slots := true } "11 am" 9 100 emptyDb).db).db).appointments
        120 ⟨11, 0⟩ ≤ 1 := by
  exact ⟨by decide, by decide⟩

/-- C1 (amended): after any sequence of commit attempts through the
`book_appointment` operation, at most one appointment with status pending
or confirmed exists at any (D, T).  (The dialogue engine\'s slot-selection
step does not preserve this: see the counterexample.) -/
theorem c1_no_double_booking_amended (ops : List ToolOp) (d : Nat) (t : Tm) :
    countActive (runTools ops emptyDb).appointments d t ≤ 1 :=
  runTools_preserves ops emptyDb (fun _ _ => by simp [countActive, emptyDb]) d t

/-- C2 counterexample: an urgent utterance ("emergency") yields the fixed
advisory reply, but the session context afterwards is NOT empty — the
previously extracted name is still there. -/
theorem c2_counterexample :
    (chat_with_agent 0 false emptyDb "party1"
        ⟨[], { name := some "Ali Khan" }⟩ "emergency").1 = urgentAdvisory ∧
    (chat_with_agent 0 false emptyDb "party1"
        ⟨[], { name := some "Ali Khan" }⟩ "emergency").2.1.context ≠ emptyContext := by
  exact ⟨by decide, by decide⟩

/-- C2 (amended): for every session state and every utterance containing
an urgency keyword, the turn returns the fixed emergency-advisory reply,
performs no field extraction or booking, and leaves the session context
UNCHANGED (it is not cleared), regardless of prior stage. -/
theorem c2_urgency_amended (today : Nat) (dbFails : Bool) (db : Db) (phone : String)
    (st : SessionState) (m : String) (h : is_urgent m = true) :
    (chat_with_agent today dbFails db phone st m).1 = urgentAdvisory ∧
    (chat_with_agent today dbFails db phone st m).2.1.context = st.context ∧
    (chat_with_agent today dbFails db phone st m).2.2 = db := by
  unfold chat_with_agent
  dsimp only
  rw [if_pos h]
  exact ⟨rfl, rfl, rfl⟩

/-- Witness for C2 (amended) at a concrete non-empty context and the Roman
Urdu keyword "seene mein dard". -/
theorem c2_urgency_amended_witness :
    (chat_with_agent 3 false emptyDb "p"
        ⟨[], { name := some "Ali Khan" }⟩ "seene mein dard").1 = urgentAdvisory ∧
    (chat_with_agent 3 false emptyDb "p"
        ⟨[], { name := some "Ali Khan" }⟩ "seene mein dard").2.1.context =
      (⟨[], { name := some "Ali Khan" }⟩ : SessionState).context ∧
    (chat_with_agent 3 false emptyDb "p"
        ⟨[], { name := some "Ali Khan" }⟩ "seene mein dard").2.2 = emptyDb :=
  c2_urgency_amended 3 false emptyDb "p" ⟨[], { name := some "Ali Khan" }⟩
    "seene mein dard" (by decide)

/-- C3 counterexample: when the booking commit fails, the session context
is CLEARED, not preserved — the fully collected context (name, age, phone,
reason, date) is empty after the failed turn, so a retry must re-enter
everything. -/
theorem c3_counterexample :
    (chat_with_agent 100 true emptyDb "p"
        ⟨[("user", "a"), ("assistant", "b"), ("user", "c"), ("assistant", "d")],
         { name := some "Ali Khan", age := some 30, phone := some "03001234567",
           reason := some "fever", date := some 120, stage := some "booking",
           shown_slots := true }⟩ "2:00 pm").2.1.context = emptyContext ∧
    ({ name := some "Ali Khan", age := some 30, phone := some "03001234567",
       reason := some "fever", date := some 120, stage := some "booking",
       shown_slots := true } : Context) ≠ emptyContext := by
  exact ⟨by decide, by decide⟩

/-- Witness for C3 (amended): a concrete full context and the utterance
"2:00 pm" with a failing commit produce exactly the apology-bearing
farewell, a reset session, and an unchanged store. -/
theorem c3_amended_witness :
    chat_with_agent 100 true emptyDb "p"
        ⟨[("user", "a"), ("assistant", "b"), ("user", "c"), ("assistant", "d")],
         { name := some "Ali Khan", age := some 30, phone := some "03001234567",
           reason := some "fever", date := some 120, stage := some "booking",
           shown_slots := true }⟩ "2:00 pm" =
      ("\n\n" ++ bookingErrMsg ++ "\n\n" ++ goodbyeTail, emptySession, emptyDb) :=
  c3_booking_failure_amended 100 emptyDb "p"
    ⟨[("user", "a"), ("assistant", "b"), ("user", "c"), ("assistant", "d")],
     { name := some "Ali Khan", age := some 30, phone := some "03001234567",
       reason := some "fever", date := some 120, stage := some "booking",
       shown_slots := true }⟩ "2:00 pm" (by decide) (by decide)

/-- C4 counterexample: the date field is overwritten even though it is
already set — "tomorrow" replaces a stored date 100 with 201 (today 200
plus one). -/
theorem c4_counterexample :
    (extract_patient_info 200 "tomorrow" ({ date := some 100 } : Context)).date = some 201 ∧
    (extract_patient_info 200 "tomorrow" ({ date := some 100 } : Context)).date ≠
      ({ date := some 100 } : Context).date := by
  exact ⟨by decide, by decide⟩

/-- C4 (amended): for every context C and utterance U, extraction leaves
the already-set name, age, phone and reason fields unchanged (first write
wins for those four fields); the date field however is overwritten by any
utterance containing a date keyword (tomorrow/kal shown here). -/
theorem c4_first_write_wins_amended (today : Nat) (m : String) (c : Context) :
    (∀ v, c.name = some v → (extract_patient_info today m c).name = some v) ∧
    (∀ v, c.age = some v → (extract_patient_info today m c).age = some v) ∧
    (∀ v, c.phone = some v → (extract_patient_info today m c).phone = some v) ∧
    (∀ v, c.reason = some v → (extract_patient_info today m c).reason = some v) ∧
    ((strContains (lowerStr m) "tomorrow" ∨ strContains (lowerStr m) "kal") →
      (extract_patient_info today m c).date = some (today + 1)) := by
  refine ⟨fun v h => epi_name_keep today m c v h,
    fun v h => epi_age_keep today m c v h,
    fun v h => epi_phone_keep today m c v h,
    fun v h => epi_reason_keep today m c v h,
    fun h => ?_⟩
  rw [epi_date, if_pos h]

/-- Witness for C4 (amended) at a fully populated context and utterance
"tomorrow". -/
theorem c4_first_write_wins_amended_witness :
    (extract_patient_info 7 "tomorrow"
        { name := some "Ali Khan", age := some 30, phone := some "03001234567",
          reason := some "fever", date := some 3 }).name = some "Ali Khan" ∧
    (extract_patient_info 7 "tomorrow"
        { name := some "Ali Khan", age := some 30, phone := some "03001234567",
          reason := some "fever", date := some 3 }).age = some 30 ∧
    (extract_patient_info 7 "tomorrow"
        { name := some "Ali Khan", age := some 30, phone := some "03001234567",
          reason := some "fever", date := some 3 }).phone = some "03001234567" ∧
    (extract_patient_info 7 "tomorrow"
        { name := some "Ali Khan", age := some 30, phone := some "03001234567",
          reason := some "fever", date := some 3 }).reason = some "fever" ∧
    (extract_patient_info 7 "tomorrow"
        { name := some "Ali Khan", age := some 30, phone := some "03001234567",
          reason := some "fever", date := some 3 }).date = some 8 := by
  have h := c4_first_write_wins_amended 7 "tomorrow"
    { name := some "Ali Khan", age := some 30, phone := some "03001234567",
      reason := some "fever", date := some 3 }
  exact ⟨h.1 _ rfl, h.2.1 _ rfl, h.2.2.1 _ rfl, h.2.2.2.1 _ rfl, h.2.2.2.2 (by decide)⟩

/-- C5: applying the extractor twice with the same utterance (and the same
current date) equals applying it once on every field already present in
the starting context. -/
theorem c5_extract_idempotent (today : Nat) (m : String) (c : Context) :
    (c.name.isSome = true →
      (extract_patient_info today m (extract_patient_info today m c)).name =
        (extract_patient_info today m c).name) ∧
    (c.age.isSome = true →
      (extract_patient_info today m (extract_patient_info today m c)).age =
        (extract_patient_info today m c).age) ∧
    (c.phone.isSome = true →
      (extract_patient_info today m (extract_patient_info today m c)).phone =
        (extract_patient_info today m c).phone) ∧
    (c.reason.isSome = true →
      (extract_patient_info today m (extract_patient_info today m c)).reason =
        (extract_patient_info today m c).reason) ∧
    (c.date.isSome = true →
      (extract_patient_info today m (extract_patient_info today m c)).date =
        (extract_patient_info today m c).date) := by
  refine ⟨?_, ?_, ?_, ?_, ?_⟩
  · intro h
    obtain ⟨v, hv⟩ := Option.isSome_iff_exists.mp h
    have h1 := epi_name_keep today m c v hv
    rw [epi_name_keep today m (extract_patient_info today m c) v h1, h1]
  · intro h
    obtain ⟨v, hv⟩ := Option.isSome_iff_exists.mp h
    have h1 := epi_age_keep today m c v hv
    rw [epi_age_keep today m (extract_patient_info today m c) v h1, h1]
  · intro h
    obtain ⟨v, hv⟩ := Option.isSome_iff_exists.mp h
    have h1 := epi_phone_keep today m c v hv
    rw [epi_phone_keep today m (extract_patient_info today m c) v h1, h1]
  · intro h
    obtain ⟨v, hv⟩ := Option.isSome_iff_exists.mp h
    have h1 := epi_reason_keep today m c v hv
    rw [epi_reason_keep today m (extract_patient_info today m c) v h1, h1]
  · intro _
    rw [epi_date today m (extract_patient_info today m c), epi_date today m c]
    by_cases hA : strContains (lowerStr m) "tomorrow" ∨ strContains (lowerStr m) "kal"
    · simp [hA]
    · by_cases hB : strContains (lowerStr m) "today" ∨ strContains (lowerStr m) "aaj"
      · simp [hA, hB]
      · simp [hA, hB]

/-- Witness for C5 at a fully populated context and utterance
"tomorrow". -/
theorem c5_extract_idempotent_witness :
    (extract_patient_info 7 "tomorrow" (extract_patient_info 7 "tomorrow"
        { name := some "Ali Khan", age := some 30, phone := some "03001234567",
          reason := some "fever", date := some 3 })).name =
      (extract_patient_info 7 "tomorrow"
        { name := some "Ali Khan", age := some 30, phone := some "03001234567",
          reason := some "fever", date := some 3 }).name ∧
    (extract_patient_info 7 "tomorrow" (extract_patient_info 7 "tomorrow"
        { name := some "Ali Khan", age := some 30, phone := some "03001234567",
          reason := some "fever", date := some 3 })).age =
      (extract_patient_info 7 "tomorrow"
        { name := some "Ali Khan", age := some 30, phone := some "03001234567",
          reason := some "fever", date := some 3 }).age ∧
    (extract_patient_info 7 "tomorrow" (extract_patient_info 7 "tomorrow"
        { name := some "Ali Khan", age := some 30, phone := some "03001234567",
          reason := some "fever", date := some 3 })).phone =
      (extract_patient_info 7 "tomorrow"
        { name := some "Ali Khan", age := some 30, phone := some "03001234567",
          reason := some "fever", date := some 3 }).phone ∧
    (extract_patient_info 7 "tomorrow" (extract_patient_info 7 "tomorrow"
        { name := some "Ali Khan", age := some 30, phone := some "03001234567",
          reason := some "fever", date := some 3 })).reason =
      (extract_patient_info 7 "tomorrow"
        { name := some "Ali Khan", age := some 30, phone := some "03001234567",
          reason := some "fever", date := some 3 }).reason ∧
    (extract_patient_info 7 "tomorrow" (extract_patient_info 7 "tomorrow"
        { name := some "Ali Khan", age := some 30, phone := some "03001234567",
          reason := some "fever", date := some 3 })).date =
      (extract_patient_info 7 "tomorrow"
        { name := some "Ali Khan", age := some 30, phone := some "03001234567",
          reason := some "fever", date := some 3 }).date := by
  have h := c5_extract_idempotent 7 "tomorrow"
    { name := some "Ali Khan", age := some 30, phone := some "03001234567",
      reason := some "fever", date := some 3 }
  exact ⟨h.1 (by decide), h.2.1 (by decide), h.2.2.1 (by decide), h.2.2.2.1 (by decide),
    h.2.2.2.2 (by decide)⟩

/-- C6: for every date strictly earlier than the current date,
`get_available_slots` returns the distinct past-date outcome, and that
outcome differs from the fully-booked outcome returned for any non-past
date whose slots are all taken — callers can distinguish the two. -/
theorem c6_past_date_distinct (today : Nat) (appts : List Appointment) (d : Nat)
    (h : d < today) :
    get_available_slots today appts d = pastDateMsg ∧
    (∀ (d2 : Nat) (appts2 : List Appointment), ¬ d2 < today →
      availableList appts2 d2 = [] →
      get_available_slots today appts2 d2 ≠ get_available_slots today appts d) := by
  constructor
  · unfold get_available_slots
    rw [if_pos h]
  · intro d2 appts2 h2 hav
    unfold get_available_slots
    dsimp only
    rw [if_pos h, if_neg h2, hav]
    simp only [List.isEmpty_nil, if_true]
    exact fullyBooked_ne_pastDate (toString d2)

/-- Witness for C6: date 3 before today 5, against a fully booked day 5. -/
theorem c6_past_date_distinct_witness :
    get_available_slots 5 [] 3 = pastDateMsg ∧
    get_available_slots 5 (generate_time_slots.map fun t => ⟨1, 5, t, "flu", "confirmed"⟩) 5 ≠
      get_available_slots 5 [] 3 := by
  have h := c6_past_date_distinct 5 [] 3 (by decide)
  exact ⟨h.1, h.2 5 (generate_time_slots.map fun t => ⟨1, 5, t, "flu", "confirmed"⟩)
    (by decide) (by decide)⟩

/-- C7 counterexample: for the utterance "13 pm" (a time expression of
the form H with a meridiem marker), the code leaves hour 13 unchanged
while the claim\'s rule ("PM adds 12 unless the hour is already 12") would
produce 25. -/
theorem c7_counterexample :
    parsedTime "13 pm" = some ⟨13, 0⟩ ∧ claimParsedTime "13 pm" = some ⟨25, 0⟩ ∧
    parsedTime "13 pm" ≠ claimParsedTime "13 pm" := by
  exact ⟨by decide, by decide, by decide⟩

/-- C7 (amended): the parsed time is normalized to 24-hour representation
where a PM marker adds 12 only when the hour is strictly below 12 (hours
12 and above are unchanged), an AM marker maps hour 12 to 0, and hours
without a marker are taken as given. -/
theorem c7_time_normalization_amended (msg : String) (h : Nat) (mins : Option Nat)
    (mer : Option String) (hm : findTimeMatch msg.toList = some (h, mins, mer)) :
    parsedTime msg = some ⟨amended24 h mer, mins.getD 0⟩ := by
  unfold parsedTime
  rw [hm]
  cases mins <;> simp [convert24_eq_amended24]

/-- Witness for C7 (amended) at the utterance "2:30 pm". -/
theorem c7_time_normalization_amended_witness :
    parsedTime "2:30 pm" = some ⟨amended24 2 (some "pm"), (some 30).getD 0⟩ :=
  c7_time_normalization_amended "2:30 pm" 2 (some 30) (some "pm") (by decide)

/-- C8: in every reachable session state where `shown_slots` is false, an
utterance containing a time expression is not treated as a time selection:
the turn neither sets the time field nor commits a booking. -/
theorem c8_no_time_selection_before_slots (today : Nat) (dbFails : Bool) (db : Db)
    (phone : String) (st : SessionState) (m : String) (hr : Reachable st)
    (hs : st.context.shown_slots = false)
    (ht : (findTimeMatch m.toList).isSome = true) :
    (chat_with_agent today dbFails db phone st m).2.1.context.time = st.context.time ∧
    (chat_with_agent today dbFails db phone st m).2.2.appointments = db.appointments := by
  have h := chat_not_shown today dbFails db phone st m (reachable_stageValid st hr) hs
  exact ⟨h.1, by rw [h.2]⟩

/-- Witness for C8: the fresh session and the utterance "2:00 PM". -/
theorem c8_no_time_selection_before_slots_witness :
    (chat_with_agent 5 false emptyDb "p" emptySession "2:00 PM").2.1.context.time =
      emptySession.context.time ∧
    (chat_with_agent 5 false emptyDb "p" emptySession "2:00 PM").2.2.appointments =
      emptyDb.appointments :=
  c8_no_time_selection_before_slots 5 false emptyDb "p" emptySession "2:00 PM"
    Reachable.init rfl (by decide)

/-- C9 counterexample: a `completed` appointment at 10:00 does NOT block
availability — the code only excludes pending/confirmed — while the
claim\'s grid-minus-non-cancelled set excludes 10:00; the offered string
still contains "10:00 AM". -/
theorem c9_counterexample :
    availableList [⟨1, 0, ⟨10, 0⟩, "flu", "completed"⟩] 0 ≠
      availableSlotsSpecClaim [⟨1, 0, ⟨10, 0⟩, "flu", "completed"⟩] 0 ∧
    strContains (get_available_slots 0 [⟨1, 0, ⟨10, 0⟩, "flu", "completed"⟩] 0) "10:00 AM"
      = true ∧
    (availableSlotsSpecClaim [⟨1, 0, ⟨10, 0⟩, "flu", "completed"⟩] 0).contains ⟨10, 0⟩
      = false := by
  exact ⟨by decide, by decide, by decide⟩

/-- C9 (amended): for every date not in the past, the available list is
exactly the grid minus the times of appointments with status pending or
confirmed on that date; appointments with status completed or cancelled do
not affect the outcome. -/
theorem c9_available_slots_amended (today : Nat) (appts : List Appointment) (d : Nat)
    (hnp : ¬ d < today) :
    availableList appts d =
      generate_time_slots.filter (fun t => !(appts.any (isActiveAt d t))) ∧
    (∀ a : Appointment, a.status = "completed" ∨ a.status = "cancelled" →
      get_available_slots today (a :: appts) d = get_available_slots today appts d) :=
  ⟨availableList_eq_active_filter appts d,
   fun a ha => get_available_slots_cons_inactive today a appts d ha⟩

/-- Witness for C9 (amended) at a store with one confirmed and one
cancelled appointment. -/
theorem c9_available_slots_amended_witness :
    availableList [⟨1, 1, ⟨10, 0⟩, "flu", "confirmed"⟩] 1 =
      generate_time_slots.filter
        (fun t => !([⟨1, 1, ⟨10, 0⟩, "flu", "confirmed"⟩] : List Appointment).any (isActiveAt 1 t)) ∧
    get_available_slots 0 (⟨2, 1, ⟨11, 0⟩, "flu", "cancelled"⟩ ::
        [⟨1, 1, ⟨10, 0⟩, "flu", "confirmed"⟩]) 1 =
      get_available_slots 0 [⟨1, 1, ⟨10, 0⟩, "flu", "confirmed"⟩] 1 := by
  have h := c9_available_slots_amended 0 [⟨1, 1, ⟨10, 0⟩, "flu", "confirmed"⟩] 1 (by decide)
  exact ⟨h.1, h.2 ⟨2, 1, ⟨11, 0⟩, "flu", "cancelled"⟩ (by decide)⟩

/-- C10: at the slot-selection step the engine commits whatever time the
pattern parse yields, without any membership check: the utterance
"9:17 pm" books a confirmed appointment at 21:17, a time outside clinic
hours — absent from the slot grid and never offered as available. -/
theorem c10_unvalidated_time_selection :
    (generate_response false "03007777777"
        { name := some "Ali Khan", age := some 30, phone := some "03001234567",
          reason := some "fever", date := some 120, stage := some "booking",
          shown_slots := true } "9:17 pm" 9 100 emptyDb).db.appointments =
      [⟨1, 120, ⟨21, 17⟩, "fever", "confirmed"⟩] ∧
    generate_time_slots.contains ⟨21, 17⟩ = false ∧
    (availableList [] 120).contains ⟨21, 17⟩ = false := by
  exact ⟨by decide, by decide, by decide⟩

end VoiceAgent
